import Mathlib

/-!
Shallow embedding of `src/exporter.py` (deye-exporter): the register-to-metric
mapping and collection engine.

Modelling conventions:
* Python strings are Lean `String`s; the program only ever feeds ASCII data
  through the normalization helpers, so `str.lower` / `str.isalnum` /
  `str.title` are modelled on their ASCII behaviour.
* Python dicts keyed by strings are association lists with insert-or-overwrite
  semantics preserving first-insertion order (`dictInsert` / `dictLookup`).
* A Python value arriving from the decoder is `Value`: a string, an int, or a
  float object. A float object is carried by its textual repr; no claim
  inspects float arithmetic, only whether `float(value)` succeeds.
* `float(s)` on a string succeeds exactly when `s` matches the Python float
  literal grammar (optional surrounding whitespace, optional sign,
  inf/infinity/nan case-insensitively, or a decimal mantissa with optional
  underscores between digits and an optional exponent); `pyFloatAccepts`
  embeds that grammar for ASCII input.
* The prometheus-client process-wide collector registry is a list of already
  registered metric names; creating a Gauge or Info whose name is present
  fails, as in the external library.
* Exceptions are `Except String`; `try/except` blocks are explicit matches.
-/

/-- A register descriptor as exposed by the external catalog
(`deye_controller.modbus.protocol.HoldingRegisters` attributes): a
human-readable description and a unit suffix, the empty string standing for a
missing suffix (the source reads it with a getattr defaulting to the empty
string). -/
structure Descriptor where
  description : String
  suffix : String
deriving DecidableEq, Repr

/-- The external register catalog: a closed mapping from register name to
descriptor, modelling attribute lookup `getattr(HoldingRegisters, name, None)`. -/
abbrev Catalog := List (String × Descriptor)

/-- A decoded register value: Python str, int, or float. A float object is
represented by its repr text; classification never inspects the payload. -/
inductive Value where
  | vstr : String → Value
  | vint : Int → Value
  | vfloat : String → Value
deriving DecidableEq, Repr

/-- ASCII model of Python `str.isalnum` for the characters this program feeds
through it. -/
def isAlnumAscii (c : Char) : Bool := c.isAlpha || c.isDigit

/-- ASCII whitespace stripped by Python `float(str)` before parsing. -/
def isPyWs (c : Char) : Bool :=
  c = ' ' || c = '\t' || c = '\n' || c = '\x0d' || c = '\x0b' || c = '\x0c'

/-- Strip leading and trailing whitespace, as `float(str)` does. -/
def trimWs (l : List Char) : List Char :=
  ((l.dropWhile isPyWs).reverse.dropWhile isPyWs).reverse

/-- Consume the continuation of a Python digitpart: digits, with single
underscores allowed only between digits; returns the unconsumed rest. -/
def parseDigitRest : List Char → List Char
  | '_' :: c :: cs => if c.isDigit then parseDigitRest cs else '_' :: c :: cs
  | c :: cs => if c.isDigit then parseDigitRest cs else c :: cs
  | [] => []

/-- Consume one Python digitpart (`digit (["_"] digit)*`); `none` when the
input does not start with a digit. -/
def parseDigitPart : List Char → Option (List Char)
  | [] => none
  | c :: cs => if c.isDigit then some (parseDigitRest cs) else none

/-- Accept an exponent (`("e"|"E") [sign] digitpart`) consuming the whole rest. -/
def parseExpOk : List Char → Bool
  | c :: cs =>
    if c = 'e' ∨ c = 'E' then
      match cs with
      | s :: cs2 =>
        if s = '+' ∨ s = '-' then
          match parseDigitPart cs2 with
          | some [] => true
          | _ => false
        else
          match parseDigitPart cs with
          | some [] => true
          | _ => false
      | [] => false
    else false
  | [] => false

/-- After the mantissa: the rest must be empty or a full exponent. -/
def tailAccepts : List Char → Bool
  | [] => true
  | l => parseExpOk l

/-- Accept a Python float mantissa (with optional fraction and exponent),
consuming the whole input. -/
def mantissaOk (l : List Char) : Bool :=
  match parseDigitPart l with
  | some rest =>
    match rest with
    | '.' :: rest2 =>
      match parseDigitPart rest2 with
      | some rest3 => tailAccepts rest3
      | none => tailAccepts rest2
    | _ => tailAccepts rest
  | none =>
    match l with
    | '.' :: rest2 =>
      match parseDigitPart rest2 with
      | some rest3 => tailAccepts rest3
      | none => false
    | _ => false

/-- Whether Python `float(s)` succeeds on the string `s` (ASCII model of the
float literal grammar accepted by the float constructor). -/
def pyFloatAccepts (s : String) : Bool :=
  let l := trimWs s.data
  let l :=
    match l with
    | c :: cs => if c = '+' ∨ c = '-' then cs else l
    | [] => l
  let low := l.map Char.toLower
  if low = "inf".data ∨ low = "infinity".data ∨ low = "nan".data then true
  else mantissaOk l

/-- Embedding of `DeyeCollector._is_numeric_value` (src/exporter.py lines 165-171):
`try: float(value); return True; except (ValueError, TypeError): return False`.
`float` succeeds on every int and float and on strings matching the float
grammar. -/
def isNumericValue : Value → Bool
  | Value.vstr s => pyFloatAccepts s
  | Value.vint _ => true
  | Value.vfloat _ => true

/-- Python `str(value)` for the values the dispatcher can receive: strings are
themselves, ints print in decimal with a leading minus when negative, and a
float object prints its repr (which is what `vfloat` carries). -/
def pyStr : Value → String
  | Value.vstr s => s
  | Value.vint n => toString n
  | Value.vfloat r => r

/-- ASCII model of Python `str.title`: a letter after a non-letter is
upper-cased, any other letter is lower-cased. -/
def pyTitleAux : Bool → List Char → List Char
  | _, [] => []
  | prevCased, c :: cs =>
    if c.isAlpha then
      (if prevCased then c.toLower else c.toUpper) :: pyTitleAux true cs
    else
      c :: pyTitleAux false cs

/-- ASCII model of Python `str.title` on a string. -/
def pyTitle (s : String) : String := String.mk (pyTitleAux false s.data)

/-- The character sanitizer of `_create_metric_id`:
`c if c.isalnum() or c == '_' else '_'`. -/
def sanitizeChar (c : Char) : Char :=
  if isAlnumAscii c || c = '_' then c else '_'

/-- Python `str.replace(' ', '_')` is a character-wise substitution. -/
def spaceToUnderscore (c : Char) : Char :=
  if c = ' ' then '_' else c

/-- Embedding of `DeyeCollector._create_metric_id` (src/exporter.py lines 173-185):
lower-case the description, replace spaces with underscores, replace every
remaining non-alphanumeric non-underscore character with an underscore,
prefix `deye_`, and append `_info` for Info metrics. -/
def createMetricId (description : String) (isInfo : Bool) : String :=
  let metricId :=
    String.mk (((description.data.map Char.toLower).map spaceToUnderscore).map sanitizeChar)
  let baseId := "deye_" ++ metricId
  if isInfo then baseId ++ "_info" else baseId

/-- Spec-worded identity derivation, for comparison with `createMetricId`:
the spec says runs of non-alphanumeric characters are collapsed to a single
separator. Collapse each maximal run of non-alphanumeric characters of the
lower-cased description into one underscore and prefix the namespace token. -/
def collapseRunsAux : Bool → List Char → List Char
  | _, [] => []
  | inRun, c :: cs =>
    if isAlnumAscii c then c :: collapseRunsAux false cs
    else if inRun then collapseRunsAux true cs
    else '_' :: collapseRunsAux true cs

/-- Spec-worded identity derivation (collapsing variant); see `collapseRunsAux`. -/
def specMetricIdCollapsed (description : String) : String :=
  "deye_" ++ String.mk (collapseRunsAux false (description.data.map Char.toLower))

/-- Insert-or-overwrite on a Python dict modelled as an association list;
an existing key keeps its position, a new key is appended. -/
def dictInsert {α : Type} (m : List (String × α)) (k : String) (v : α) :
    List (String × α) :=
  match m with
  | [] => [(k, v)]
  | (k', v') :: rest => if k' = k then (k, v) :: rest else (k', v') :: dictInsert rest k v

/-- Key lookup on the dict model. -/
def dictLookup {α : Type} (m : List (String × α)) (k : String) : Option α :=
  match m with
  | [] => none
  | (k', v') :: rest => if k' = k then some v' else dictLookup rest k

/-- The key list of the dict model, in insertion order. -/
def dictKeys {α : Type} (m : List (String × α)) : List String := m.map Prod.fst

/-- A prometheus Gauge handle: its process-wide metric name, its label text,
and the value last written by `set` (none before the first write). -/
structure GaugeMetric where
  metricId : String
  label : String
  value : Option Value
deriving DecidableEq, Repr

/-- A prometheus Info handle: its process-wide metric name, its label text,
and the string last written by `info` (none before the first write). -/
structure InfoMetric where
  metricId : String
  label : String
  value : Option String
deriving DecidableEq, Repr

/-- The collector state built by `_setup_metrics`: `numeric_metrics` and
`string_metrics` keyed by the title-cased description, and `registers` keyed
by the register name. -/
structure Registry where
  numericMetrics : List (String × GaugeMetric)
  stringMetrics : List (String × InfoMetric)
  registers : List (String × Descriptor)
deriving DecidableEq, Repr

/-- The collector state before `_setup_metrics` runs (lines 159-162). -/
def emptyRegistry : Registry := { numericMetrics := [], stringMetrics := [], registers := [] }

/-- The duplicate-registration error raised by the prometheus client when a
metric name is created twice in the process-wide collector registry. -/
def dupErr (mid : String) : String :=
  "Duplicated timeseries in CollectorRegistry: " ++ mid

/-- Model of `Gauge(name, label)`: register the name in the process-wide namespace,
failing when it is already present, and return a fresh handle. -/
def createGauge (mid lbl : String) (ns : List String) :
    Except String (GaugeMetric × List String) :=
  if mid ∈ ns then Except.error (dupErr mid)
  else Except.ok ({ metricId := mid, label := lbl, value := none }, mid :: ns)

/-- Model of `Info(name, label)`: same registration discipline as `createGauge`. -/
def createInfo (mid lbl : String) (ns : List String) :
    Except String (InfoMetric × List String) :=
  if mid ∈ ns then Except.error (dupErr mid)
  else Except.ok ({ metricId := mid, label := lbl, value := none }, mid :: ns)

/-- The label text registered for a descriptor (lines 200-202):
`f"{description} ({suffix})" if suffix else description`, on the title-cased
description. -/
def fullDescriptionOf (register : Descriptor) : String :=
  let description := pyTitle register.description
  if register.suffix ≠ "" then description ++ " (" ++ register.suffix ++ ")" else description

/-- One iteration of the `_setup_metrics` loop (lines 189-212) for a single
configured name: an unresolvable name is skipped with a warning (state
unchanged); a resolved register is stored, then a Gauge and an Info are
created in the process-wide namespace (either creation failing raises, which
aborts startup) and recorded under the title-cased description. -/
def setupStep (cat : Catalog) (metricName : String) (reg : Registry) (ns : List String) :
    Except String (Registry × List String) :=
  match dictLookup cat metricName with
  | none => Except.ok (reg, ns)
  | some register =>
    let reg1 : Registry := { reg with registers := dictInsert reg.registers metricName register }
    let description := pyTitle register.description
    let fullDescription := fullDescriptionOf register
    match createGauge (createMetricId description false) fullDescription ns with
    | Except.error e => Except.error e
    | Except.ok (g, ns1) =>
      match createInfo (createMetricId description true) fullDescription ns1 with
      | Except.error e => Except.error e
      | Except.ok (i, ns2) =>
        Except.ok
          ({ reg1 with
             numericMetrics := dictInsert reg1.numericMetrics description g,
             stringMetrics := dictInsert reg1.stringMetrics description i }, ns2)

/-- Embedding of `DeyeCollector._setup_metrics` (lines 187-212): fold `setupStep` over the
configured names; the first raised error propagates (no handler in the
source). -/
def setupMetrics (cat : Catalog) :
    List String → Registry → List String → Except String (Registry × List String)
  | [], reg, ns => Except.ok (reg, ns)
  | metricName :: rest, reg, ns =>
    match setupStep cat metricName reg ns with
    | Except.error e => Except.error e
    | Except.ok (reg', ns') => setupMetrics cat rest reg' ns'

/-- Build the registry from scratch, as `DeyeCollector.__init__` does, against
a given process-wide namespace state. -/
def buildRegistry (cat : Catalog) (names : List String) (ns : List String) :
    Except String (Registry × List String) :=
  setupMetrics cat names emptyRegistry ns

/-- The registry key a resolved register is recorded under: its title-cased
description. -/
def keyOf (register : Descriptor) : String := pyTitle register.description

/-- The process-wide metric name of the Gauge handle of a resolved register. -/
def gaugeIdOf (register : Descriptor) : String := createMetricId (keyOf register) false

/-- The process-wide metric name of the Info handle of a resolved register. -/
def infoIdOf (register : Descriptor) : String := createMetricId (keyOf register) true

/-- The Gauge handle `_setup_metrics` creates for a resolved register. -/
def gaugeHandleOf (register : Descriptor) : GaugeMetric :=
  { metricId := gaugeIdOf register, label := fullDescriptionOf register, value := none }

/-- The Info handle `_setup_metrics` creates for a resolved register. -/
def infoHandleOf (register : Descriptor) : InfoMetric :=
  { metricId := infoIdOf register, label := fullDescriptionOf register, value := none }

/-- The collector state after `setupStep` succeeds on a resolved register. -/
def stepRegistry (reg : Registry) (metricName : String) (register : Descriptor) : Registry :=
  { numericMetrics := dictInsert reg.numericMetrics (keyOf register) (gaugeHandleOf register),
    stringMetrics := dictInsert reg.stringMetrics (keyOf register) (infoHandleOf register),
    registers := dictInsert reg.registers metricName register }

/-- Embedding of `DeyeCollector._update_metric` (lines 214-231): classify the value; a
numeric value is written (as `float(value)`) into the numeric handle for the
description when one exists; any other value is written as
`str(value)` (plus a space and the suffix when the suffix is non-empty) into
the string handle when one exists; with no matching handle nothing changes. -/
def updateMetric (reg : Registry) (description : String) (v : Value) (suffix : String) :
    Registry :=
  if isNumericValue v then
    match dictLookup reg.numericMetrics description with
    | some g =>
      { reg with numericMetrics :=
          dictInsert reg.numericMetrics description { g with value := some v } }
    | none => reg
  else
    match dictLookup reg.stringMetrics description with
    | some i =>
      let valueStr := if suffix ≠ "" then pyStr v ++ " " ++ suffix else pyStr v
      { reg with stringMetrics :=
          dictInsert reg.stringMetrics description { i with value := some valueStr } }
    | none => reg

/-- One decoded register as seen by the dispatch loop (lines 249-258):
`description` is `none` when the object lacks the attribute, `suffix`
defaults to the empty string, `value` is `none` when absent. -/
structure RegRead where
  description : Option String
  suffix : String
  value : Option Value
deriving DecidableEq, Repr

/-- The outcome of `read_holding_registers` plus `map_response` for one batch:
either the decoded registers of the batch or a raised exception. -/
abbrev BatchResult := Except String (List RegRead)

/-- The per-register dispatch body (lines 249-258): a register without a
description is logged and skipped; a register without a value is skipped;
otherwise its value is dispatched under the title-cased description. -/
def dispatchReg (reg : Registry) (r : RegRead) : Registry :=
  match r.description with
  | none => reg
  | some d =>
    match r.value with
    | none => reg
    | some v => updateMetric reg (pyTitle d) v r.suffix

/-- Dispatch every decoded register of one batch, in order. -/
def dispatchBatch (reg : Registry) (rs : List RegRead) : Registry :=
  rs.foldl dispatchReg reg

/-- The body of one iteration of the group loop before its `try/except`
(lines 245-258): the read/decode may raise; on success the batch is
dispatched. -/
def processGroup (reg : Registry) (b : BatchResult) : Except String Registry :=
  match b with
  | Except.error e => Except.error e
  | Except.ok rs => Except.ok (dispatchBatch reg rs)

/-- One iteration of the group loop with its `try/except` (lines 244-261): a
raised read/decode error is logged and the batch abandoned, the state kept. -/
def groupStep (reg : Registry) (b : BatchResult) : Registry :=
  match processGroup reg b with
  | Except.ok r => r
  | Except.error _ => reg

/-- The body of `collect_metrics` inside the outer `try` (lines 235-261): the
batch plan is produced by the external grouping function (here: the given
batch outcomes) and each group is processed under its own `try/except`. -/
def collectBody (reg : Registry) (batches : List BatchResult) : Except String Registry :=
  Except.ok (batches.foldl groupStep reg)

/-- Embedding of `DeyeCollector.collect_metrics` (lines 233-264): the whole cycle body is
wrapped in an outer `try/except` that logs and returns, so the caller always
gets the (possibly partially) updated state back. -/
def collect_metrics (reg : Registry) (batches : List BatchResult) : Registry :=
  match collectBody reg batches with
  | Except.ok r => r
  | Except.error _ => reg

/-! Concrete instances used by witnesses and counterexamples. -/

/-- Catalog used by the C2 witness. -/
def catC2 : Catalog := [("BatterySOC", { description := "Battery State of Charge", suffix := "%" })]

/-- Catalog used by the C6 counterexample. -/
def catC6 : Catalog := [("BatterySOC", { description := "Battery State of Charge", suffix := "%" })]

/-- Catalog used by the C7 witness. -/
def catC7 : Catalog := [("BatteryVoltage", { description := "Battery Voltage", suffix := "V" })]

/-- Catalog used by the C8 counterexample and witness. -/
def catC8 : Catalog := [("BatterySOC", { description := "Battery State of Charge", suffix := "%" })]

/-- Catalog used by the C10 witness. -/
def catC10 : Catalog := [("TodayFromPV", { description := "Today From PV", suffix := "kWh" })]

/-- Registry used by the C4 witness: one register with both handles under key X. -/
def regC4 : Registry :=
  { numericMetrics := [("X", { metricId := "deye_x", label := "X", value := none })],
    stringMetrics := [("X", { metricId := "deye_x_info", label := "X", value := none })],
    registers := [] }

/-- Registry used by the C5 witness. -/
def regC5 : Registry :=
  { numericMetrics := [("X", { metricId := "deye_x", label := "X (%)", value := none })],
    stringMetrics := [("X", { metricId := "deye_x_info", label := "X (%)", value := none })],
    registers := [] }

/-- Registry used by the C9 witness: handles already hold previous values. -/
def regC9 : Registry :=
  { numericMetrics := [("X", { metricId := "deye_x", label := "X", value := some (Value.vint 5) })],
    stringMetrics := [("X", { metricId := "deye_x_info", label := "X", value := some "Standby" })],
    registers := [] }

/-! Lemmas about the dict model. -/

theorem dictKeys_nil {α : Type} : dictKeys ([] : List (String × α)) = [] := rfl

theorem dictKeys_cons {α : Type} (k0 : String) (v0 : α) (rest : List (String × α)) :
    dictKeys ((k0, v0) :: rest) = k0 :: dictKeys rest := rfl

theorem dictLookup_nil {α : Type} (k : String) : dictLookup ([] : List (String × α)) k = none := rfl

theorem dictLookup_cons {α : Type} (k0 k : String) (v0 : α) (rest : List (String × α)) :
    dictLookup ((k0, v0) :: rest) k = if k0 = k then some v0 else dictLookup rest k := rfl

theorem dictInsert_nil {α : Type} (k : String) (v : α) :
    dictInsert ([] : List (String × α)) k v = [(k, v)] := rfl

theorem dictInsert_cons {α : Type} (k0 k : String) (v0 v : α) (rest : List (String × α)) :
    dictInsert ((k0, v0) :: rest) k v =
      if k0 = k then (k, v) :: rest else (k0, v0) :: dictInsert rest k v := rfl

theorem dictLookup_dictInsert_self {α : Type} (m : List (String × α)) (k : String) (v : α) :
    dictLookup (dictInsert m k v) k = some v := by
  induction m with
  | nil => simp [dictInsert_nil, dictLookup_cons, dictLookup_nil]
  | cons p rest ih =>
    obtain ⟨k', v'⟩ := p
    by_cases h : k' = k
    · simp [dictInsert_cons, h, dictLookup_cons]
    · simp [dictInsert_cons, h, dictLookup_cons, ih]

theorem dictLookup_dictInsert_ne {α : Type} (m : List (String × α)) (k k' : String) (v : α)
    (h : k' ≠ k) : dictLookup (dictInsert m k v) k' = dictLookup m k' := by
  have hk : ¬ (k = k') := fun hh => h hh.symm
  induction m with
  | nil => simp [dictInsert_nil, dictLookup_cons, dictLookup_nil, hk]
  | cons p rest ih =>
    obtain ⟨k0, v0⟩ := p
    by_cases h0 : k0 = k
    · subst h0
      simp [dictInsert_cons, dictLookup_cons, hk]
    · simp [dictInsert_cons, h0, dictLookup_cons, ih]

theorem mem_dictKeys_dictInsert {α : Type} (m : List (String × α)) (k d : String) (v : α) :
    d ∈ dictKeys (dictInsert m k v) ↔ d = k ∨ d ∈ dictKeys m := by
  induction m with
  | nil => simp [dictInsert_nil, dictKeys_cons, dictKeys_nil]
  | cons p rest ih =>
    obtain ⟨k0, v0⟩ := p
    by_cases h0 : k0 = k
    · subst h0
      simp [dictInsert_cons, dictKeys_cons]
    · simp [dictInsert_cons, h0, dictKeys_cons, ih]
      tauto

theorem dictKeys_dictInsert_of_lookup_some {α : Type} (m : List (String × α)) (k : String)
    (v w : α) (h : dictLookup m k = some w) :
    dictKeys (dictInsert m k v) = dictKeys m := by
  induction m with
  | nil => simp [dictLookup_nil] at h
  | cons p rest ih =>
    obtain ⟨k0, v0⟩ := p
    by_cases h0 : k0 = k
    · subst h0; simp [dictInsert_cons, dictKeys_cons]
    · rw [dictLookup_cons, if_neg h0] at h
      simp [dictInsert_cons, h0, dictKeys_cons, ih h]

theorem dictKeys_dictInsert_of_lookup_none {α : Type} (m : List (String × α)) (k : String)
    (v : α) (h : dictLookup m k = none) :
    dictKeys (dictInsert m k v) = dictKeys m ++ [k] := by
  induction m with
  | nil => simp [dictInsert_nil, dictKeys_cons, dictKeys_nil]
  | cons p rest ih =>
    obtain ⟨k0, v0⟩ := p
    by_cases h0 : k0 = k
    · rw [dictLookup_cons, if_pos h0] at h
      exact absurd h (by simp)
    · rw [dictLookup_cons, if_neg h0] at h
      simp [dictInsert_cons, h0, dictKeys_cons, ih h]

theorem dictLookup_isSome_of_mem_keys {α : Type} (m : List (String × α)) (k : String)
    (h : k ∈ dictKeys m) : ∃ w, dictLookup m k = some w := by
  induction m with
  | nil => simp [dictKeys_nil] at h
  | cons p rest ih =>
    obtain ⟨k0, v0⟩ := p
    by_cases h0 : k0 = k
    · exact ⟨v0, by rw [dictLookup_cons, if_pos h0]⟩
    · rw [dictKeys_cons, List.mem_cons] at h
      rcases h with h | h
      · exact absurd h.symm h0
      · obtain ⟨w, hw⟩ := ih h
        exact ⟨w, by rw [dictLookup_cons, if_neg h0]; exact hw⟩

theorem mem_keys_of_dictLookup_some {α : Type} (m : List (String × α)) (k : String) (w : α)
    (h : dictLookup m k = some w) : k ∈ dictKeys m := by
  induction m with
  | nil => simp [dictLookup_nil] at h
  | cons p rest ih =>
    obtain ⟨k0, v0⟩ := p
    by_cases h0 : k0 = k
    · rw [dictKeys_cons]; exact h0 ▸ List.mem_cons_self k0 (dictKeys rest)
    · rw [dictLookup_cons, if_neg h0] at h
      rw [dictKeys_cons]
      exact List.mem_cons_of_mem k0 (ih h)

/-! Characterization of the registry-build steps. -/

theorem setupStep_unresolvable (cat : Catalog) (name : String) (reg : Registry)
    (ns : List String) (h : dictLookup cat name = none) :
    setupStep cat name reg ns = Except.ok (reg, ns) := by
  unfold setupStep
  rw [h]

theorem setupStep_resolved (cat : Catalog) (name : String) (reg : Registry) (ns : List String)
    (register : Descriptor) (h : dictLookup cat name = some register)
    (hg : gaugeIdOf register ∉ ns)
    (hi : infoIdOf register ∉ gaugeIdOf register :: ns) :
    setupStep cat name reg ns =
      Except.ok (stepRegistry reg name register,
                 infoIdOf register :: gaugeIdOf register :: ns) := by
  unfold setupStep
  rw [h]
  simp only [gaugeIdOf, infoIdOf, keyOf] at hg hi
  simp [createGauge, createInfo, hg, hi, stepRegistry, gaugeHandleOf, infoHandleOf,
    gaugeIdOf, infoIdOf, keyOf]

theorem setupStep_dup_gauge (cat : Catalog) (name : String) (reg : Registry) (ns : List String)
    (register : Descriptor) (h : dictLookup cat name = some register)
    (hg : gaugeIdOf register ∈ ns) :
    setupStep cat name reg ns = Except.error (dupErr (gaugeIdOf register)) := by
  unfold setupStep
  rw [h]
  simp only [gaugeIdOf, keyOf] at hg
  simp [createGauge, hg, gaugeIdOf, keyOf]

theorem setupStep_ok_cases (cat : Catalog) (name : String) (reg : Registry) (ns : List String)
    (reg' : Registry) (ns' : List String)
    (h : setupStep cat name reg ns = Except.ok (reg', ns')) :
    (dictLookup cat name = none ∧ reg' = reg ∧ ns' = ns) ∨
    (∃ register, dictLookup cat name = some register ∧
       gaugeIdOf register ∉ ns ∧
       infoIdOf register ∉ gaugeIdOf register :: ns ∧
       reg' = stepRegistry reg name register ∧
       ns' = infoIdOf register :: gaugeIdOf register :: ns) := by
  cases hc : dictLookup cat name with
  | none =>
    rw [setupStep_unresolvable cat name reg ns hc] at h
    simp at h
    exact Or.inl ⟨rfl, h.1.symm, h.2.symm⟩
  | some register =>
    by_cases hg : gaugeIdOf register ∈ ns
    · rw [setupStep_dup_gauge cat name reg ns register hc hg] at h
      simp at h
    · by_cases hi : infoIdOf register ∈ gaugeIdOf register :: ns
      · unfold setupStep at h
        rw [hc] at h
        simp only [gaugeIdOf, infoIdOf, keyOf] at hg hi
        simp [createGauge, createInfo, hg, hi] at h
      · rw [setupStep_resolved cat name reg ns register hc hg hi] at h
        simp at h
        exact Or.inr ⟨register, rfl, hg, hi, h.1.symm, h.2.symm⟩

theorem setupMetrics_nil (cat : Catalog) (reg : Registry) (ns : List String) :
    setupMetrics cat [] reg ns = Except.ok (reg, ns) := rfl

theorem setupMetrics_cons (cat : Catalog) (name : String) (rest : List String)
    (reg : Registry) (ns : List String) :
    setupMetrics cat (name :: rest) reg ns =
      match setupStep cat name reg ns with
      | Except.error e => Except.error e
      | Except.ok (reg', ns') => setupMetrics cat rest reg' ns' := rfl

theorem setupMetrics_cons_ok (cat : Catalog) (name : String) (rest : List String)
    (reg : Registry) (ns : List String) (reg' : Registry) (ns' : List String)
    (h : setupStep cat name reg ns = Except.ok (reg', ns')) :
    setupMetrics cat (name :: rest) reg ns = setupMetrics cat rest reg' ns' := by
  rw [setupMetrics_cons, h]

theorem setupMetrics_cons_err (cat : Catalog) (name : String) (rest : List String)
    (reg : Registry) (ns : List String) (e : String)
    (h : setupStep cat name reg ns = Except.error e) :
    setupMetrics cat (name :: rest) reg ns = Except.error e := by
  rw [setupMetrics_cons, h]

theorem setupMetrics_cons_ok_inv (cat : Catalog) (name : String) (rest : List String)
    (reg : Registry) (ns : List String) (r : Registry) (ns'' : List String)
    (h : setupMetrics cat (name :: rest) reg ns = Except.ok (r, ns'')) :
    ∃ reg' ns', setupStep cat name reg ns = Except.ok (reg', ns') ∧
      setupMetrics cat rest reg' ns' = Except.ok (r, ns'') := by
  rw [setupMetrics_cons] at h
  cases hs : setupStep cat name reg ns with
  | error e => rw [hs] at h; simp at h
  | ok p =>
    obtain ⟨reg', ns'⟩ := p
    rw [hs] at h
    exact ⟨reg', ns', rfl, h⟩

theorem dictLookup_eq_none_of_not_mem {α : Type} (m : List (String × α)) (k : String)
    (h : k ∉ dictKeys m) : dictLookup m k = none := by
  cases hl : dictLookup m k with
  | none => rfl
  | some w => exact absurd (mem_keys_of_dictLookup_some m k w hl) h

/-! Induction lemmas for `setupMetrics`. -/

theorem setupMetrics_filter (cat : Catalog) :
    ∀ (names : List String) (reg : Registry) (ns : List String),
      setupMetrics cat names reg ns =
        setupMetrics cat (names.filter fun n => (dictLookup cat n).isSome) reg ns := by
  intro names
  induction names with
  | nil => intro reg ns; rfl
  | cons name rest ih =>
    intro reg ns
    cases hc : dictLookup cat name with
    | none =>
      rw [setupMetrics_cons_ok cat name rest reg ns reg ns
        (setupStep_unresolvable cat name reg ns hc)]
      have hf : (name :: rest).filter (fun n => (dictLookup cat n).isSome) =
          rest.filter (fun n => (dictLookup cat n).isSome) := by
        simp [List.filter_cons, hc]
      rw [hf, ih]
    | some register =>
      have hf : (name :: rest).filter (fun n => (dictLookup cat n).isSome) =
          name :: rest.filter (fun n => (dictLookup cat n).isSome) := by
        simp [List.filter_cons, hc]
      rw [hf, setupMetrics_cons, setupMetrics_cons]
      cases hs : setupStep cat name reg ns with
      | error e => rfl
      | ok p =>
        obtain ⟨reg', ns'⟩ := p
        exact ih reg' ns'

theorem setupMetrics_ns_mono (cat : Catalog) :
    ∀ (names : List String) (reg : Registry) (ns : List String) (r : Registry)
      (ns'' : List String),
      setupMetrics cat names reg ns = Except.ok (r, ns'') →
      ∀ x, x ∈ ns → x ∈ ns'' := by
  intro names
  induction names with
  | nil =>
    intro reg ns r ns'' h x hx
    rw [setupMetrics_nil] at h
    simp at h
    exact h.2 ▸ hx
  | cons name rest ih =>
    intro reg ns r ns'' h x hx
    obtain ⟨reg', ns', hs, hrest⟩ := setupMetrics_cons_ok_inv cat name rest reg ns r ns'' h
    rcases setupStep_ok_cases cat name reg ns reg' ns' hs with
      ⟨_, _, hns⟩ | ⟨register, _, _, _, _, hns⟩
    · exact ih reg' ns' r ns'' hrest x (hns ▸ hx)
    · exact ih reg' ns' r ns'' hrest x
        (hns ▸ List.mem_cons_of_mem _ (List.mem_cons_of_mem _ hx))

theorem setupMetrics_keys_eq (cat : Catalog) :
    ∀ (names : List String) (reg : Registry) (ns : List String) (r : Registry)
      (ns'' : List String),
      setupMetrics cat names reg ns = Except.ok (r, ns'') →
      dictKeys reg.numericMetrics = dictKeys reg.stringMetrics →
      dictKeys r.numericMetrics = dictKeys r.stringMetrics := by
  intro names
  induction names with
  | nil =>
    intro reg ns r ns'' h hk
    rw [setupMetrics_nil] at h
    simp at h
    exact h.1 ▸ hk
  | cons name rest ih =>
    intro reg ns r ns'' h hk
    obtain ⟨reg', ns', hs, hrest⟩ := setupMetrics_cons_ok_inv cat name rest reg ns r ns'' h
    rcases setupStep_ok_cases cat name reg ns reg' ns' hs with
      ⟨_, hreg, _⟩ | ⟨register, _, _, _, hreg, _⟩
    · exact ih reg' ns' r ns'' hrest (hreg ▸ hk)
    · refine ih reg' ns' r ns'' hrest ?_
      subst hreg
      by_cases hm : keyOf register ∈ dictKeys reg.numericMetrics
      · obtain ⟨g0, hg0⟩ := dictLookup_isSome_of_mem_keys _ _ hm
        obtain ⟨i0, hi0⟩ := dictLookup_isSome_of_mem_keys _ _ (hk ▸ hm)
        show dictKeys (dictInsert reg.numericMetrics (keyOf register) (gaugeHandleOf register)) =
          dictKeys (dictInsert reg.stringMetrics (keyOf register) (infoHandleOf register))
        rw [dictKeys_dictInsert_of_lookup_some _ _ _ g0 hg0,
          dictKeys_dictInsert_of_lookup_some _ _ _ i0 hi0]
        exact hk
      · have hg0 := dictLookup_eq_none_of_not_mem reg.numericMetrics (keyOf register) hm
        have hi0 := dictLookup_eq_none_of_not_mem reg.stringMetrics (keyOf register) (hk ▸ hm)
        show dictKeys (dictInsert reg.numericMetrics (keyOf register) (gaugeHandleOf register)) =
          dictKeys (dictInsert reg.stringMetrics (keyOf register) (infoHandleOf register))
        rw [dictKeys_dictInsert_of_lookup_none _ _ _ hg0,
          dictKeys_dictInsert_of_lookup_none _ _ _ hi0, hk]

theorem setupMetrics_mem_keys (cat : Catalog) :
    ∀ (names : List String) (reg : Registry) (ns : List String) (r : Registry)
      (ns'' : List String),
      setupMetrics cat names reg ns = Except.ok (r, ns'') →
      ∀ d, d ∈ dictKeys r.numericMetrics ↔
        d ∈ dictKeys reg.numericMetrics ∨
        ∃ n register, n ∈ names ∧ dictLookup cat n = some register ∧ keyOf register = d := by
  intro names
  induction names with
  | nil =>
    intro reg ns r ns'' h d
    rw [setupMetrics_nil] at h
    simp at h
    rw [← h.1]
    simp
  | cons name rest ih =>
    intro reg ns r ns'' h d
    obtain ⟨reg', ns', hs, hrest⟩ := setupMetrics_cons_ok_inv cat name rest reg ns r ns'' h
    rcases setupStep_ok_cases cat name reg ns reg' ns' hs with
      ⟨hc, hreg, _⟩ | ⟨register0, hc, _, _, hreg, _⟩
    · subst hreg
      rw [ih reg' ns' r ns'' hrest d]
      constructor
      · rintro (hmem | ⟨n, register, hn, hr, hkd⟩)
        · exact Or.inl hmem
        · exact Or.inr ⟨n, register, List.mem_cons_of_mem _ hn, hr, hkd⟩
      · rintro (hmem | ⟨n, register, hn, hr, hkd⟩)
        · exact Or.inl hmem
        · rcases List.mem_cons.mp hn with rfl | hn'
          · rw [hc] at hr; exact absurd hr (by simp)
          · exact Or.inr ⟨n, register, hn', hr, hkd⟩
    · subst hreg
      rw [ih _ ns' r ns'' hrest d]
      have hins : d ∈ dictKeys (stepRegistry reg name register0).numericMetrics ↔
          d = keyOf register0 ∨ d ∈ dictKeys reg.numericMetrics :=
        mem_dictKeys_dictInsert reg.numericMetrics (keyOf register0) d (gaugeHandleOf register0)
      rw [hins]
      constructor
      · rintro ((rfl | hmem) | ⟨n, register, hn, hr, hkd⟩)
        · exact Or.inr ⟨name, register0, List.mem_cons_self name rest, hc, rfl⟩
        · exact Or.inl hmem
        · exact Or.inr ⟨n, register, List.mem_cons_of_mem _ hn, hr, hkd⟩
      · rintro (hmem | ⟨n, register, hn, hr, hkd⟩)
        · exact Or.inl (Or.inr hmem)
        · rcases List.mem_cons.mp hn with rfl | hn'
          · rw [hc] at hr
            have : register = register0 := by
              have := hr
              simp at this
              exact this.symm
            exact Or.inl (Or.inl (by rw [← hkd, this]))
          · exact Or.inr ⟨n, register, hn', hr, hkd⟩

theorem setupMetrics_canon (cat : Catalog) :
    ∀ (names : List String) (reg : Registry) (ns : List String) (r : Registry)
      (ns'' : List String),
      setupMetrics cat names reg ns = Except.ok (r, ns'') →
      (∀ d g, dictLookup reg.numericMetrics d = some g → g.metricId = createMetricId d false) →
      (∀ d i, dictLookup reg.stringMetrics d = some i → i.metricId = createMetricId d true) →
      (∀ d g, dictLookup r.numericMetrics d = some g → g.metricId = createMetricId d false) ∧
      (∀ d i, dictLookup r.stringMetrics d = some i → i.metricId = createMetricId d true) := by
  intro names
  induction names with
  | nil =>
    intro reg ns r ns'' h hn hs
    rw [setupMetrics_nil] at h
    simp at h
    exact h.1 ▸ ⟨hn, hs⟩
  | cons name rest ih =>
    intro reg ns r ns'' h hn hs
    obtain ⟨reg', ns', hstep, hrest⟩ := setupMetrics_cons_ok_inv cat name rest reg ns r ns'' h
    rcases setupStep_ok_cases cat name reg ns reg' ns' hstep with
      ⟨_, hreg, _⟩ | ⟨register0, _, _, _, hreg, _⟩
    · exact ih reg' ns' r ns'' hrest (hreg ▸ hn) (hreg ▸ hs)
    · subst hreg
      refine ih _ ns' r ns'' hrest ?_ ?_
      · intro d g hg
        by_cases hd : d = keyOf register0
        · subst hd
          rw [show (stepRegistry reg name register0).numericMetrics =
              dictInsert reg.numericMetrics (keyOf register0) (gaugeHandleOf register0) from rfl,
            dictLookup_dictInsert_self] at hg
          cases hg
          rfl
        · rw [show (stepRegistry reg name register0).numericMetrics =
              dictInsert reg.numericMetrics (keyOf register0) (gaugeHandleOf register0) from rfl,
            dictLookup_dictInsert_ne _ _ _ _ hd] at hg
          exact hn d g hg
      · intro d i hi
        by_cases hd : d = keyOf register0
        · subst hd
          rw [show (stepRegistry reg name register0).stringMetrics =
              dictInsert reg.stringMetrics (keyOf register0) (infoHandleOf register0) from rfl,
            dictLookup_dictInsert_self] at hi
          cases hi
          rfl
        · rw [show (stepRegistry reg name register0).stringMetrics =
              dictInsert reg.stringMetrics (keyOf register0) (infoHandleOf register0) from rfl,
            dictLookup_dictInsert_ne _ _ _ _ hd] at hi
          exact hs d i hi

theorem setupMetrics_preserve (cat : Catalog) :
    ∀ (names : List String) (reg : Registry) (ns : List String) (r : Registry)
      (ns'' : List String),
      setupMetrics cat names reg ns = Except.ok (r, ns'') →
      (∀ d g, dictLookup reg.numericMetrics d = some g → createMetricId d false ∈ ns) →
      (∀ d i, dictLookup reg.stringMetrics d = some i → createMetricId d true ∈ ns) →
      (∀ d g, dictLookup reg.numericMetrics d = some g → dictLookup r.numericMetrics d = some g) ∧
      (∀ d i, dictLookup reg.stringMetrics d = some i → dictLookup r.stringMetrics d = some i) ∧
      (∀ d g, dictLookup r.numericMetrics d = some g → createMetricId d false ∈ ns'') ∧
      (∀ d i, dictLookup r.stringMetrics d = some i → createMetricId d true ∈ ns'') := by
  intro names
  induction names with
  | nil =>
    intro reg ns r ns'' h hn hs
    rw [setupMetrics_nil] at h
    simp at h
    obtain ⟨h1, h2⟩ := h
    subst h1; subst h2
    exact ⟨fun d g hg => hg, fun d i hi => hi, hn, hs⟩
  | cons name rest ih =>
    intro reg ns r ns'' h hn hs
    obtain ⟨reg', ns', hstep, hrest⟩ := setupMetrics_cons_ok_inv cat name rest reg ns r ns'' h
    rcases setupStep_ok_cases cat name reg ns reg' ns' hstep with
      ⟨_, hreg, hns⟩ | ⟨register0, _, hgnotin, hinotin, hreg, hns⟩
    · subst hreg; subst hns
      exact ih reg' ns' r ns'' hrest hn hs
    · subst hreg; subst hns
      have hnumEq : (stepRegistry reg name register0).numericMetrics =
          dictInsert reg.numericMetrics (keyOf register0) (gaugeHandleOf register0) := rfl
      have hstrEq : (stepRegistry reg name register0).stringMetrics =
          dictInsert reg.stringMetrics (keyOf register0) (infoHandleOf register0) := rfl
      -- the new state still satisfies the namespace invariant
      have hn' : ∀ d g, dictLookup (stepRegistry reg name register0).numericMetrics d = some g →
          createMetricId d false ∈ infoIdOf register0 :: gaugeIdOf register0 :: ns := by
        intro d g hg
        by_cases hd : d = keyOf register0
        · subst hd
          exact List.mem_cons_of_mem _ (List.mem_cons_self _ _)
        · rw [hnumEq, dictLookup_dictInsert_ne _ _ _ _ hd] at hg
          exact List.mem_cons_of_mem _ (List.mem_cons_of_mem _ (hn d g hg))
      have hs' : ∀ d i, dictLookup (stepRegistry reg name register0).stringMetrics d = some i →
          createMetricId d true ∈ infoIdOf register0 :: gaugeIdOf register0 :: ns := by
        intro d i hi
        by_cases hd : d = keyOf register0
        · subst hd
          exact List.mem_cons_self _ _
        · rw [hstrEq, dictLookup_dictInsert_ne _ _ _ _ hd] at hi
          exact List.mem_cons_of_mem _ (List.mem_cons_of_mem _ (hs d i hi))
      obtain ⟨p1, p2, p3, p4⟩ := ih _ _ r ns'' hrest hn' hs'
      refine ⟨?_, ?_, p3, p4⟩
      · intro d g hg
        have hd : d ≠ keyOf register0 := by
          intro hd
          subst hd
          exact hgnotin (hn (keyOf register0) g hg)
        refine p1 d g ?_
        rw [hnumEq, dictLookup_dictInsert_ne _ _ _ _ hd]
        exact hg
      · intro d i hi
        have hd : d ≠ keyOf register0 := by
          intro hd
          subst hd
          exact hinotin (List.mem_cons_of_mem _ (hs (keyOf register0) i hi))
        refine p2 d i ?_
        rw [hstrEq, dictLookup_dictInsert_ne _ _ _ _ hd]
        exact hi

theorem setupMetrics_resolved_entry (cat : Catalog) :
    ∀ (names : List String) (reg : Registry) (ns : List String) (r : Registry)
      (ns'' : List String),
      setupMetrics cat names reg ns = Except.ok (r, ns'') →
      (∀ d g, dictLookup reg.numericMetrics d = some g → createMetricId d false ∈ ns) →
      (∀ d i, dictLookup reg.stringMetrics d = some i → createMetricId d true ∈ ns) →
      ∀ n register, n ∈ names → dictLookup cat n = some register →
        dictLookup r.numericMetrics (keyOf register) = some (gaugeHandleOf register) ∧
        dictLookup r.stringMetrics (keyOf register) = some (infoHandleOf register) ∧
        gaugeIdOf register ∈ ns'' ∧ infoIdOf register ∈ ns'' := by
  intro names
  induction names with
  | nil =>
    intro reg ns r ns'' h hn hs n register hmem
    simp at hmem
  | cons name rest ih =>
    intro reg ns r ns'' h hn hs n register hmem hres
    obtain ⟨reg', ns', hstep, hrest⟩ := setupMetrics_cons_ok_inv cat name rest reg ns r ns'' h
    rcases setupStep_ok_cases cat name reg ns reg' ns' hstep with
      ⟨hc, hreg, hns⟩ | ⟨register0, hc, hgnotin, hinotin, hreg, hns⟩
    · subst hreg; subst hns
      rcases List.mem_cons.mp hmem with rfl | hmem'
      · rw [hc] at hres; exact absurd hres (by simp)
      · exact ih reg' ns' r ns'' hrest hn hs n register hmem' hres
    · subst hreg; subst hns
      have hnumEq : (stepRegistry reg name register0).numericMetrics =
          dictInsert reg.numericMetrics (keyOf register0) (gaugeHandleOf register0) := rfl
      have hstrEq : (stepRegistry reg name register0).stringMetrics =
          dictInsert reg.stringMetrics (keyOf register0) (infoHandleOf register0) := rfl
      have hn' : ∀ d g, dictLookup (stepRegistry reg name register0).numericMetrics d = some g →
          createMetricId d false ∈ infoIdOf register0 :: gaugeIdOf register0 :: ns := by
        intro d g hg
        by_cases hd : d = keyOf register0
        · subst hd
          exact List.mem_cons_of_mem _ (List.mem_cons_self _ _)
        · rw [hnumEq, dictLookup_dictInsert_ne _ _ _ _ hd] at hg
          exact List.mem_cons_of_mem _ (List.mem_cons_of_mem _ (hn d g hg))
      have hs' : ∀ d i, dictLookup (stepRegistry reg name register0).stringMetrics d = some i →
          createMetricId d true ∈ infoIdOf register0 :: gaugeIdOf register0 :: ns := by
        intro d i hi
        by_cases hd : d = keyOf register0
        · subst hd
          exact List.mem_cons_self _ _
        · rw [hstrEq, dictLookup_dictInsert_ne _ _ _ _ hd] at hi
          exact List.mem_cons_of_mem _ (List.mem_cons_of_mem _ (hs d i hi))
      rcases List.mem_cons.mp hmem with rfl | hmem'
      · -- the head name resolves to register0; it is inserted here and preserved
        rw [hc] at hres
        have hregeq : register = register0 := by
          have := hres; simp at this; exact this.symm
        subst hregeq
        obtain ⟨p1, p2, p3, p4⟩ := setupMetrics_preserve cat rest _ _ r ns'' hrest hn' hs'
        have e1 : dictLookup (stepRegistry reg n register).numericMetrics (keyOf register) =
            some (gaugeHandleOf register) := by
          rw [hnumEq, dictLookup_dictInsert_self]
        have e2 : dictLookup (stepRegistry reg n register).stringMetrics (keyOf register) =
            some (infoHandleOf register) := by
          rw [hstrEq, dictLookup_dictInsert_self]
        have f1 := p1 (keyOf register) (gaugeHandleOf register) e1
        have f2 := p2 (keyOf register) (infoHandleOf register) e2
        exact ⟨f1, f2, p3 (keyOf register) (gaugeHandleOf register) f1,
          p4 (keyOf register) (infoHandleOf register) f2⟩
      · exact ih _ _ r ns'' hrest hn' hs' n register hmem' hres

theorem setupMetrics_registry_det (cat : Catalog) :
    ∀ (names : List String) (reg : Registry) (ns₁ ns₂ : List String) (r₁ r₂ : Registry)
      (k₁ k₂ : List String),
      setupMetrics cat names reg ns₁ = Except.ok (r₁, k₁) →
      setupMetrics cat names reg ns₂ = Except.ok (r₂, k₂) →
      r₁ = r₂ := by
  intro names
  induction names with
  | nil =>
    intro reg ns₁ ns₂ r₁ r₂ k₁ k₂ h₁ h₂
    rw [setupMetrics_nil] at h₁ h₂
    simp at h₁ h₂
    rw [← h₁.1, ← h₂.1]
  | cons name rest ih =>
    intro reg ns₁ ns₂ r₁ r₂ k₁ k₂ h₁ h₂
    obtain ⟨reg₁', ns₁', hstep₁, hrest₁⟩ := setupMetrics_cons_ok_inv cat name rest reg ns₁ r₁ k₁ h₁
    obtain ⟨reg₂', ns₂', hstep₂, hrest₂⟩ := setupMetrics_cons_ok_inv cat name rest reg ns₂ r₂ k₂ h₂
    rcases setupStep_ok_cases cat name reg ns₁ reg₁' ns₁' hstep₁ with
      ⟨hc₁, hreg₁, _⟩ | ⟨register₁, hc₁, _, _, hreg₁, _⟩ <;>
    rcases setupStep_ok_cases cat name reg ns₂ reg₂' ns₂' hstep₂ with
      ⟨hc₂, hreg₂, _⟩ | ⟨register₂, hc₂, _, _, hreg₂, _⟩
    · subst hreg₁; subst hreg₂
      exact ih _ ns₁' ns₂' r₁ r₂ k₁ k₂ hrest₁ hrest₂
    · rw [hc₁] at hc₂; exact absurd hc₂ (by simp)
    · rw [hc₂] at hc₁; exact absurd hc₁ (by simp)
    · rw [hc₁] at hc₂
      have : register₁ = register₂ := by simp at hc₂; exact hc₂
      subst this
      subst hreg₁; subst hreg₂
      exact ih _ ns₁' ns₂' r₁ r₂ k₁ k₂ hrest₁ hrest₂

theorem setupMetrics_dup_error (cat : Catalog) :
    ∀ (names : List String) (reg2 : Registry) (ns2 : List String),
      (∃ n register, n ∈ names ∧ dictLookup cat n = some register) →
      (∀ n register, n ∈ names → dictLookup cat n = some register →
         gaugeIdOf register ∈ ns2) →
      ∃ e, setupMetrics cat names reg2 ns2 = Except.error e := by
  intro names
  induction names with
  | nil =>
    intro reg2 ns2 hex _
    obtain ⟨n, register, hmem, _⟩ := hex
    simp at hmem
  | cons name rest ih =>
    intro reg2 ns2 hex hid
    cases hc : dictLookup cat name with
    | some register0 =>
      have hg : gaugeIdOf register0 ∈ ns2 := hid name register0 (List.mem_cons_self _ _) hc
      exact ⟨dupErr (gaugeIdOf register0),
        setupMetrics_cons_err cat name rest reg2 ns2 _
          (setupStep_dup_gauge cat name reg2 ns2 register0 hc hg)⟩
    | none =>
      obtain ⟨n, register, hmem, hres⟩ := hex
      have hmem' : n ∈ rest := by
        rcases List.mem_cons.mp hmem with rfl | hmem'
        · rw [hc] at hres; exact absurd hres (by simp)
        · exact hmem'
      obtain ⟨e, he⟩ := ih reg2 ns2 ⟨n, register, hmem', hres⟩
        (fun m mregister hm hr => hid m mregister (List.mem_cons_of_mem _ hm) hr)
      exact ⟨e, by
        rw [setupMetrics_cons_ok cat name rest reg2 ns2 reg2 ns2
          (setupStep_unresolvable cat name reg2 ns2 hc)]
        exact he⟩

/-! Lemmas about dispatch and collection. -/

theorem updateMetric_keys (reg : Registry) (d : String) (v : Value) (s : String) :
    dictKeys (updateMetric reg d v s).numericMetrics = dictKeys reg.numericMetrics ∧
    dictKeys (updateMetric reg d v s).stringMetrics = dictKeys reg.stringMetrics := by
  unfold updateMetric
  by_cases hnum : isNumericValue v
  · rw [if_pos hnum]
    cases hl : dictLookup reg.numericMetrics d with
    | none => exact ⟨rfl, rfl⟩
    | some g =>
      constructor
      · exact dictKeys_dictInsert_of_lookup_some reg.numericMetrics d _ g hl
      · rfl
  · rw [if_neg hnum]
    cases hl : dictLookup reg.stringMetrics d with
    | none => exact ⟨rfl, rfl⟩
    | some i =>
      constructor
      · rfl
      · exact dictKeys_dictInsert_of_lookup_some reg.stringMetrics d _ i hl

theorem dispatchReg_keys (reg : Registry) (r : RegRead) :
    dictKeys (dispatchReg reg r).numericMetrics = dictKeys reg.numericMetrics ∧
    dictKeys (dispatchReg reg r).stringMetrics = dictKeys reg.stringMetrics := by
  unfold dispatchReg
  cases r.description with
  | none => exact ⟨rfl, rfl⟩
  | some d =>
    cases r.value with
    | none => exact ⟨rfl, rfl⟩
    | some v => exact updateMetric_keys reg (pyTitle d) v r.suffix

theorem dispatchBatch_keys (rs : List RegRead) :
    ∀ (reg : Registry),
      dictKeys (dispatchBatch reg rs).numericMetrics = dictKeys reg.numericMetrics ∧
      dictKeys (dispatchBatch reg rs).stringMetrics = dictKeys reg.stringMetrics := by
  induction rs with
  | nil => intro reg; exact ⟨rfl, rfl⟩
  | cons r rest ih =>
    intro reg
    have h1 := dispatchReg_keys reg r
    have h2 := ih (dispatchReg reg r)
    exact ⟨h2.1.trans h1.1, h2.2.trans h1.2⟩

theorem groupStep_error (reg : Registry) (e : String) :
    groupStep reg (Except.error e) = reg := rfl

theorem groupStep_ok (reg : Registry) (rs : List RegRead) :
    groupStep reg (Except.ok rs) = dispatchBatch reg rs := rfl

theorem collect_metrics_eq_foldl (reg : Registry) (batches : List BatchResult) :
    collect_metrics reg batches = batches.foldl groupStep reg := rfl

theorem groupStep_keys (reg : Registry) (b : BatchResult) :
    dictKeys (groupStep reg b).numericMetrics = dictKeys reg.numericMetrics ∧
    dictKeys (groupStep reg b).stringMetrics = dictKeys reg.stringMetrics := by
  cases b with
  | error e => exact ⟨rfl, rfl⟩
  | ok rs => exact dispatchBatch_keys rs reg

theorem collect_metrics_keys (batches : List BatchResult) :
    ∀ (reg : Registry),
      dictKeys (collect_metrics reg batches).numericMetrics = dictKeys reg.numericMetrics ∧
      dictKeys (collect_metrics reg batches).stringMetrics = dictKeys reg.stringMetrics := by
  induction batches with
  | nil => intro reg; exact ⟨rfl, rfl⟩
  | cons b rest ih =>
    intro reg
    have h1 := groupStep_keys reg b
    have h2 := ih (groupStep reg b)
    rw [collect_metrics_eq_foldl] at h2 ⊢
    rw [List.foldl_cons]
    exact ⟨h2.1.trans h1.1, h2.2.trans h1.2⟩

theorem updateMetric_emptyRegistry (d : String) (v : Value) (s : String) :
    updateMetric emptyRegistry d v s = emptyRegistry := by
  unfold updateMetric
  by_cases hnum : isNumericValue v
  · rw [if_pos hnum]; rfl
  · rw [if_neg hnum]; rfl

theorem dispatchReg_emptyRegistry (r : RegRead) :
    dispatchReg emptyRegistry r = emptyRegistry := by
  unfold dispatchReg
  cases r.description with
  | none => rfl
  | some d =>
    cases r.value with
    | none => rfl
    | some v => exact updateMetric_emptyRegistry (pyTitle d) v r.suffix

theorem dispatchBatch_emptyRegistry (rs : List RegRead) :
    dispatchBatch emptyRegistry rs = emptyRegistry := by
  induction rs with
  | nil => rfl
  | cons r rest ih =>
    show dispatchBatch (dispatchReg emptyRegistry r) rest = emptyRegistry
    rw [dispatchReg_emptyRegistry]
    exact ih

theorem collect_metrics_emptyRegistry (batches : List BatchResult) :
    collect_metrics emptyRegistry batches = emptyRegistry := by
  induction batches with
  | nil => rfl
  | cons b rest ih =>
    rw [collect_metrics_eq_foldl, List.foldl_cons]
    have hb : groupStep emptyRegistry b = emptyRegistry := by
      cases b with
      | error e => rfl
      | ok rs => exact dispatchBatch_emptyRegistry rs
    rw [hb]
    exact ih

/-! Normalization lemmas for the metric-identity derivation. -/

theorem sanitize_comp (c : Char) :
    sanitizeChar (spaceToUnderscore (Char.toLower c)) =
      if isAlnumAscii (Char.toLower c) then Char.toLower c else '_' := by
  by_cases ha : isAlnumAscii (Char.toLower c)
  · have hs : Char.toLower c ≠ ' ' := by
      intro h
      rw [h] at ha
      exact absurd ha (by decide)
    rw [if_pos ha]
    unfold spaceToUnderscore
    rw [if_neg hs]
    unfold sanitizeChar
    rw [if_pos (by simp [ha])]
  · rw [if_neg ha]
    by_cases hsp : Char.toLower c = ' '
    · rw [hsp]; decide
    · unfold spaceToUnderscore
      rw [if_neg hsp]
      by_cases hu : Char.toLower c = '_'
      · rw [hu]; decide
      · unfold sanitizeChar
        rw [if_neg (by simp [ha, hu])]

theorem normalize_chain (l : List Char) :
    ((l.map Char.toLower).map spaceToUnderscore).map sanitizeChar =
      l.map (fun c => if isAlnumAscii c.toLower then c.toLower else '_') := by
  induction l with
  | nil => rfl
  | cons c cs ih =>
    simp only [List.map_cons]
    rw [ih, sanitize_comp c]

theorem createMetricId_info_suffix (d : String) :
    createMetricId d true = createMetricId d false ++ "_info" := rfl

theorem string_ne_append_info (s : String) : s ≠ s ++ "_info" := by
  intro h
  have hlen := congrArg String.length h
  rw [String.length_append] at hlen
  have h5 : "_info".length = 5 := rfl
  omega

/-- Claim C1: `collect_metrics` never raises an exception to its caller; a
read or decode failure abandons only its own batch, and every other batch in
the cycle is still read, decoded and dispatched. Formally: the cycle body
always returns `Except.ok`; a cycle containing a failed batch equals the
cycle without that batch; and a successful batch anywhere in the cycle is
dispatched into the state accumulated so far. -/
theorem claim_C1 (reg : Registry) (bs₁ bs₂ : List BatchResult) (e : String)
    (rs : List RegRead) :
    collectBody reg (bs₁ ++ Except.error e :: bs₂) =
      Except.ok (collect_metrics reg (bs₁ ++ bs₂)) ∧
    collect_metrics reg (bs₁ ++ Except.error e :: bs₂) =
      collect_metrics reg (bs₁ ++ bs₂) ∧
    collect_metrics reg (bs₁ ++ Except.ok rs :: bs₂) =
      collect_metrics (dispatchBatch (collect_metrics reg bs₁) rs) bs₂ := by
  refine ⟨?_, ?_, ?_⟩
  · show Except.ok ((bs₁ ++ Except.error e :: bs₂).foldl groupStep reg) =
      Except.ok (collect_metrics reg (bs₁ ++ bs₂))
    rw [collect_metrics_eq_foldl]
    simp [List.foldl_append, List.foldl_cons, groupStep_error]
  · rw [collect_metrics_eq_foldl, collect_metrics_eq_foldl]
    simp [List.foldl_append, List.foldl_cons, groupStep_error]
  · rw [collect_metrics_eq_foldl, collect_metrics_eq_foldl, collect_metrics_eq_foldl]
    simp [List.foldl_append, List.foldl_cons, groupStep_ok]

/-- Claim C3, counterexample: the claim states that runs of non-alphanumeric
characters are collapsed to a single separator; the code replaces each such
character individually, so the description `A--B` yields `deye_a__b` (two
separators), not the collapsed `deye_a_b`. -/
theorem claim_C3_counterexample :
    createMetricId "A--B" false = "deye_a__b" ∧
    specMetricIdCollapsed "A--B" = "deye_a_b" ∧
    createMetricId "A--B" false ≠ specMetricIdCollapsed "A--B" := by
  refine ⟨by decide, by decide, by decide⟩

/-- Claim C3, amended: metric-identity derivation is a pure deterministic
function of the description string alone; the identity is the description
lower-cased with every non-alphanumeric character replaced by one separator
each (runs are not collapsed; an underscore stays an underscore), prefixed
with the fixed namespace token `deye_`, and with `_info` appended for the
textual handle. -/
theorem claim_C3_amended (d : String) (b : Bool) :
    createMetricId d b =
      (if b then
        ("deye_" ++ String.mk (d.data.map fun c =>
          if isAlnumAscii c.toLower then c.toLower else '_')) ++ "_info"
       else
        "deye_" ++ String.mk (d.data.map fun c =>
          if isAlnumAscii c.toLower then c.toLower else '_')) := by
  unfold createMetricId
  rw [normalize_chain]

/-- Claim C4: value classification succeeds exactly when conversion by the
float constructor does: `"12.5"`, `12.5` and `-3` are numeric, `"Standby"`
and `"0x1A fault"` are textual; and classification depends only on the value,
never on the metric identity it is dispatched to — if a value updates the
numeric table anywhere, it never touches the textual table under any other
identity, registry or suffix. -/
theorem claim_C4 :
    isNumericValue (Value.vstr "12.5") = true ∧
    isNumericValue (Value.vfloat "12.5") = true ∧
    isNumericValue (Value.vint (-3)) = true ∧
    isNumericValue (Value.vstr "Standby") = false ∧
    isNumericValue (Value.vstr "0x1A fault") = false ∧
    ∀ (v : Value) (reg₁ reg₂ : Registry) (d₁ d₂ s₁ s₂ : String),
      (updateMetric reg₁ d₁ v s₁).numericMetrics ≠ reg₁.numericMetrics →
      (updateMetric reg₂ d₂ v s₂).stringMetrics = reg₂.stringMetrics := by
  refine ⟨by decide, rfl, rfl, by decide, by decide, ?_⟩
  intro v reg₁ reg₂ d₁ d₂ s₁ s₂ h
  by_cases hnum : isNumericValue v
  · unfold updateMetric
    rw [if_pos hnum]
    cases dictLookup reg₂.numericMetrics d₂ with
    | none => rfl
    | some g => rfl
  · exfalso
    apply h
    unfold updateMetric
    rw [if_neg hnum]
    cases dictLookup reg₁.stringMetrics d₁ with
    | none => rfl
    | some i => rfl

/-- Witness for claim C4: the value `"12.5"` does update a numeric handle in
a registry that has one, and under a different identity, registry and suffix
it leaves the textual table untouched. -/
theorem claim_C4_witness :
    (updateMetric regC4 "X" (Value.vstr "12.5") "").numericMetrics ≠ regC4.numericMetrics ∧
    (updateMetric regC4 "Y" (Value.vstr "12.5") "z").stringMetrics = regC4.stringMetrics := by
  refine ⟨by decide, ?_⟩
  exact claim_C4.2.2.2.2.2 (Value.vstr "12.5") regC4 regC4 "X" "Y" "" "z" (by decide)

/-- Claim C6, counterexample: the spec says an empty configured list means
collecting the full catalog, but `_setup_metrics` iterates only over the
configured names: with a non-empty catalog and an empty list the built
registry exposes no metric at all. -/
theorem claim_C6_counterexample :
    buildRegistry catC6 [] [] = Except.ok (emptyRegistry, []) ∧
    dictLookup catC6 "BatterySOC" =
      some { description := "Battery State of Charge", suffix := "%" } ∧
    dictKeys emptyRegistry.numericMetrics = [] := by
  exact ⟨rfl, rfl, rfl⟩

/-- Claim C6, amended: when the configured list of register names is empty,
the registry is built over no registers — it is empty, nothing is registered
in the process-wide namespace, and every collection cycle over it leaves it
empty. -/
theorem claim_C6_amended (cat : Catalog) (ns : List String) :
    buildRegistry cat [] ns = Except.ok (emptyRegistry, ns) ∧
    ∀ batches, collect_metrics emptyRegistry batches = emptyRegistry := by
  exact ⟨rfl, collect_metrics_emptyRegistry⟩

/-- Claim C9: when the transport read (or decode) fails for every batch of a
cycle, no metric handle is updated: the registry after the cycle is exactly
the registry before it, and the collector returns normally. -/
theorem claim_C9 (reg : Registry) :
    ∀ (bs : List BatchResult),
      (∀ b ∈ bs, ∃ e, b = Except.error e) →
      collect_metrics reg bs = reg := by
  intro bs
  induction bs with
  | nil => intro _; rfl
  | cons b rest ih =>
    intro h
    obtain ⟨e, he⟩ := h b (List.mem_cons_self b rest)
    subst he
    rw [collect_metrics_eq_foldl, List.foldl_cons, groupStep_error,
      ← collect_metrics_eq_foldl]
    exact ih fun x hx => h x (List.mem_cons_of_mem _ hx)

/-- Witness for claim C9: a cycle whose only batch fails with a timeout
leaves a registry with previously written handle values unchanged. -/
theorem claim_C9_witness :
    (∀ b ∈ [(Except.error "timeout" : BatchResult)], ∃ e, b = Except.error e) ∧
    collect_metrics regC9 [(Except.error "timeout" : BatchResult)] = regC9 := by
  refine ⟨?_, ?_⟩
  · intro b hb
    exact ⟨"timeout", by simpa using hb⟩
  · exact claim_C9 regC9 [(Except.error "timeout" : BatchResult)]
      (fun b hb => ⟨"timeout", by simpa using hb⟩)

theorem emptyRegistry_numeric_lookup (d : String) :
    dictLookup emptyRegistry.numericMetrics d = none := rfl

theorem emptyRegistry_string_lookup (d : String) :
    dictLookup emptyRegistry.stringMetrics d = none := rfl

theorem emptyRegistry_numeric_vacuous {P : String → GaugeMetric → Prop} :
    ∀ d g, dictLookup emptyRegistry.numericMetrics d = some g → P d g := by
  intro d g h
  rw [emptyRegistry_numeric_lookup] at h
  exact absurd h (by simp)

theorem emptyRegistry_string_vacuous {P : String → InfoMetric → Prop} :
    ∀ d i, dictLookup emptyRegistry.stringMetrics d = some i → P d i := by
  intro d i h
  rw [emptyRegistry_string_lookup] at h
  exact absurd h (by simp)

/-- Claim C5: `_update_metric` updates exactly one of the two handle tables
for the target identity, chosen at update time: a numeric value goes into the
numeric handle (holding the coerced value), any other value goes into the
textual handle as its string form with the unit suffix appended when present;
an identity with no matching handle in the chosen table is silently ignored
and nothing changes. -/
theorem claim_C5 (reg : Registry) (d : String) (v : Value) (s : String) :
    (isNumericValue v = true →
       (updateMetric reg d v s).stringMetrics = reg.stringMetrics ∧
       (dictLookup reg.numericMetrics d = none → updateMetric reg d v s = reg) ∧
       (∀ g, dictLookup reg.numericMetrics d = some g →
          dictLookup (updateMetric reg d v s).numericMetrics d =
            some { g with value := some v } ∧
          ∀ d', d' ≠ d → dictLookup (updateMetric reg d v s).numericMetrics d' =
            dictLookup reg.numericMetrics d')) ∧
    (isNumericValue v = false →
       (updateMetric reg d v s).numericMetrics = reg.numericMetrics ∧
       (dictLookup reg.stringMetrics d = none → updateMetric reg d v s = reg) ∧
       (∀ i, dictLookup reg.stringMetrics d = some i →
          dictLookup (updateMetric reg d v s).stringMetrics d =
            some { i with
                   value := some (if s ≠ "" then pyStr v ++ " " ++ s else pyStr v) } ∧
          ∀ d', d' ≠ d → dictLookup (updateMetric reg d v s).stringMetrics d' =
            dictLookup reg.stringMetrics d')) := by
  constructor
  · intro hnum
    refine ⟨?_, ?_, ?_⟩
    · unfold updateMetric
      rw [if_pos hnum]
      cases dictLookup reg.numericMetrics d with
      | none => rfl
      | some g => rfl
    · intro hl
      unfold updateMetric
      rw [if_pos hnum, hl]
    · intro g hl
      have hupd : updateMetric reg d v s =
          { reg with numericMetrics :=
              dictInsert reg.numericMetrics d { g with value := some v } } := by
        unfold updateMetric
        rw [if_pos hnum, hl]
      rw [hupd]
      exact ⟨dictLookup_dictInsert_self reg.numericMetrics d _,
        fun d' hd' => dictLookup_dictInsert_ne reg.numericMetrics d d' _ hd'⟩
  · intro hnum
    have hnum' : ¬ (isNumericValue v = true) := by rw [hnum]; simp
    refine ⟨?_, ?_, ?_⟩
    · unfold updateMetric
      rw [if_neg hnum']
      cases dictLookup reg.stringMetrics d with
      | none => rfl
      | some i => rfl
    · intro hl
      unfold updateMetric
      rw [if_neg hnum', hl]
    · intro i hl
      have hupd : updateMetric reg d v s =
          { reg with
            stringMetrics :=
              dictInsert reg.stringMetrics d
                { i with
                  value := some (if s ≠ "" then pyStr v ++ " " ++ s else pyStr v) } } := by
        unfold updateMetric
        rw [if_neg hnum', hl]
      rw [hupd]
      exact ⟨dictLookup_dictInsert_self reg.stringMetrics d _,
        fun d' hd' => dictLookup_dictInsert_ne reg.stringMetrics d d' _ hd'⟩

/-- Witness for claim C5: dispatching the numeric value `"12.5"` with suffix
`%` to identity `X` updates only the numeric handle (to the coerced value)
and leaves the textual table untouched. -/
theorem claim_C5_witness :
    isNumericValue (Value.vstr "12.5") = true ∧
    dictLookup (updateMetric regC5 "X" (Value.vstr "12.5") "%").numericMetrics "X" =
      some { metricId := "deye_x", label := "X (%)", value := some (Value.vstr "12.5") } ∧
    (updateMetric regC5 "X" (Value.vstr "12.5") "%").stringMetrics = regC5.stringMetrics := by
  refine ⟨by decide, ?_, ?_⟩
  · exact (((claim_C5 regC5 "X" (Value.vstr "12.5") "%").1 (by decide)).2.2
      { metricId := "deye_x", label := "X (%)", value := none } rfl).1
  · exact ((claim_C5 regC5 "X" (Value.vstr "12.5") "%").1 (by decide)).1

/-- Claim C2: building the registry never raises on unresolvable names —
the build behaves exactly as if those names were absent — and on success the
key set of the registry is exactly the title-cased descriptions of the resolvable
subset of the configured names, each numeric handle carrying the identity
derived from its key. -/
theorem claim_C2 (cat : Catalog) (names ns : List String) :
    buildRegistry cat names ns =
      buildRegistry cat (names.filter fun n => (dictLookup cat n).isSome) ns ∧
    ∀ r ns'', buildRegistry cat names ns = Except.ok (r, ns'') →
      (∀ d, d ∈ dictKeys r.numericMetrics ↔
         ∃ n register, n ∈ names ∧ dictLookup cat n = some register ∧
           keyOf register = d) ∧
      (∀ d g, dictLookup r.numericMetrics d = some g →
         g.metricId = createMetricId d false) := by
  constructor
  · exact setupMetrics_filter cat names emptyRegistry ns
  · intro r ns'' h
    constructor
    · intro d
      rw [setupMetrics_mem_keys cat names emptyRegistry ns r ns'' h d]
      constructor
      · rintro (hmem | hex)
        · exact absurd hmem (by simp [emptyRegistry, dictKeys])
        · exact hex
      · intro hex
        exact Or.inr hex
    · exact (setupMetrics_canon cat names emptyRegistry ns r ns'' h
        emptyRegistry_numeric_vacuous emptyRegistry_string_vacuous).1

/-- Witness for claim C2: a configured list with one resolvable and one
unknown name builds successfully; the key set contains exactly the title-cased
description of the resolvable name. -/
theorem claim_C2_witness :
    buildRegistry catC2 ["BatterySOC", "Bogus"] [] =
      Except.ok
        ({ numericMetrics := [("Battery State Of Charge",
             { metricId := "deye_battery_state_of_charge",
               label := "Battery State Of Charge (%)", value := none })],
           stringMetrics := [("Battery State Of Charge",
             { metricId := "deye_battery_state_of_charge_info",
               label := "Battery State Of Charge (%)", value := none })],
           registers := [("BatterySOC",
             { description := "Battery State of Charge", suffix := "%" })] },
         ["deye_battery_state_of_charge_info", "deye_battery_state_of_charge"]) ∧
    ("Battery State Of Charge" ∈
        dictKeys (Registry.mk
          [("Battery State Of Charge",
            { metricId := "deye_battery_state_of_charge",
              label := "Battery State Of Charge (%)", value := none })]
          [("Battery State Of Charge",
            { metricId := "deye_battery_state_of_charge_info",
              label := "Battery State Of Charge (%)", value := none })]
          [("BatterySOC",
            { description := "Battery State of Charge", suffix := "%" })]).numericMetrics ↔
      ∃ n register, n ∈ ["BatterySOC", "Bogus"] ∧ dictLookup catC2 n = some register ∧
        keyOf register = "Battery State Of Charge") := by
  refine ⟨rfl, ?_⟩
  exact ((claim_C2 catC2 ["BatterySOC", "Bogus"] []).2 _ _ rfl).1 "Battery State Of Charge"

/-- Claim C7: every resolved register gets both a numeric and a textual
handle under the same title-cased-description key; the identity of the numeric
handle is derived from the description alone, the textual one is the same
identity with the info suffix; the unit suffix is folded only into the
human-readable label as `description (suffix)`, never into the identity. -/
theorem claim_C7 (cat : Catalog) (names ns : List String) (r : Registry)
    (ns'' : List String) (n : String) (register : Descriptor)
    (h : buildRegistry cat names ns = Except.ok (r, ns''))
    (hn : n ∈ names) (hres : dictLookup cat n = some register) :
    dictLookup r.numericMetrics (keyOf register) = some (gaugeHandleOf register) ∧
    dictLookup r.stringMetrics (keyOf register) = some (infoHandleOf register) ∧
    gaugeHandleOf register =
      { metricId := createMetricId (pyTitle register.description) false,
        label := fullDescriptionOf register, value := none } ∧
    infoHandleOf register =
      { metricId := createMetricId (pyTitle register.description) true,
        label := fullDescriptionOf register, value := none } ∧
    fullDescriptionOf register =
      (if register.suffix ≠ "" then
        pyTitle register.description ++ " (" ++ register.suffix ++ ")"
       else pyTitle register.description) := by
  have hmain := setupMetrics_resolved_entry cat names emptyRegistry ns r ns'' h
    emptyRegistry_numeric_vacuous emptyRegistry_string_vacuous n register hn hres
  exact ⟨hmain.1, hmain.2.1, rfl, rfl, rfl⟩

/-- Witness for claim C7: the concrete build over `BatteryVoltage` exposes the
gauge and info handles under the key `Battery Voltage` with the suffix folded
into the labels only. -/
theorem claim_C7_witness :
    dictLookup (Registry.mk
        [("Battery Voltage",
          { metricId := "deye_battery_voltage",
            label := "Battery Voltage (V)", value := none })]
        [("Battery Voltage",
          { metricId := "deye_battery_voltage_info",
            label := "Battery Voltage (V)", value := none })]
        [("BatteryVoltage",
          { description := "Battery Voltage", suffix := "V" })]).numericMetrics
      "Battery Voltage" =
      some { metricId := "deye_battery_voltage",
             label := "Battery Voltage (V)", value := none } ∧
    dictLookup (Registry.mk
        [("Battery Voltage",
          { metricId := "deye_battery_voltage",
            label := "Battery Voltage (V)", value := none })]
        [("Battery Voltage",
          { metricId := "deye_battery_voltage_info",
            label := "Battery Voltage (V)", value := none })]
        [("BatteryVoltage",
          { description := "Battery Voltage", suffix := "V" })]).stringMetrics
      "Battery Voltage" =
      some { metricId := "deye_battery_voltage_info",
             label := "Battery Voltage (V)", value := none } := by
  have h := claim_C7 catC7 ["BatteryVoltage"] []
    (Registry.mk
      [("Battery Voltage",
        { metricId := "deye_battery_voltage",
          label := "Battery Voltage (V)", value := none })]
      [("Battery Voltage",
        { metricId := "deye_battery_voltage_info",
          label := "Battery Voltage (V)", value := none })]
      [("BatteryVoltage",
        { description := "Battery Voltage", suffix := "V" })])
    ["deye_battery_voltage_info", "deye_battery_voltage"]
    "BatteryVoltage" { description := "Battery Voltage", suffix := "V" }
    rfl (List.mem_cons_self _ _) rfl
  exact ⟨h.1, h.2.1⟩

/-- Claim C8, counterexample: running the builder twice on the same input is
not guarded — the second run attempts to create the Gauge whose identity the
first run already registered, and the process-wide namespace rejects it with
a duplicate-registration error. -/
theorem claim_C8_counterexample :
    buildRegistry catC8 ["BatterySOC"] [] =
      Except.ok
        (Registry.mk
          [("Battery State Of Charge",
            { metricId := "deye_battery_state_of_charge",
              label := "Battery State Of Charge (%)", value := none })]
          [("Battery State Of Charge",
            { metricId := "deye_battery_state_of_charge_info",
              label := "Battery State Of Charge (%)", value := none })]
          [("BatterySOC",
            { description := "Battery State of Charge", suffix := "%" })],
         ["deye_battery_state_of_charge_info", "deye_battery_state_of_charge"]) ∧
    buildRegistry catC8 ["BatterySOC"]
        ["deye_battery_state_of_charge_info", "deye_battery_state_of_charge"] =
      Except.error (dupErr "deye_battery_state_of_charge") := by
  exact ⟨rfl, rfl⟩

/-- Claim C8, amended: the computed identity-to-label mapping is a
deterministic function of the input — two successful builds of the same names
yield identical registries — but the builder is not idempotent against the
process-wide namespace: a second run after a successful first run does
attempt to re-create an already-registered identity and fails with the
duplicate-registration startup error. -/
theorem claim_C8_amended (cat : Catalog) (names : List String)
    (ns₁ ns₂ ns : List String) (r₁ r₂ r : Registry) (k₁ k₂ ns'' : List String)
    (n : String) (register : Descriptor) :
    (buildRegistry cat names ns₁ = Except.ok (r₁, k₁) →
     buildRegistry cat names ns₂ = Except.ok (r₂, k₂) → r₁ = r₂) ∧
    (buildRegistry cat names ns = Except.ok (r, ns'') →
     n ∈ names → dictLookup cat n = some register →
     ∃ e, buildRegistry cat names ns'' = Except.error e) := by
  constructor
  · intro h₁ h₂
    exact setupMetrics_registry_det cat names emptyRegistry ns₁ ns₂ r₁ r₂ k₁ k₂ h₁ h₂
  · intro h hn hres
    refine setupMetrics_dup_error cat names emptyRegistry ns'' ⟨n, register, hn, hres⟩ ?_
    intro m mregister hm hr
    exact (setupMetrics_resolved_entry cat names emptyRegistry ns r ns'' h
      emptyRegistry_numeric_vacuous emptyRegistry_string_vacuous m mregister hm hr).2.2.1

/-- Witness for claim C8: on the concrete one-register catalog, two builds
from the same namespace state agree, and the second run against the namespace
left by the first fails. -/
theorem claim_C8_amended_witness :
    (Registry.mk
      [("Battery State Of Charge",
        { metricId := "deye_battery_state_of_charge",
          label := "Battery State Of Charge (%)", value := none })]
      [("Battery State Of Charge",
        { metricId := "deye_battery_state_of_charge_info",
          label := "Battery State Of Charge (%)", value := none })]
      [("BatterySOC",
        { description := "Battery State of Charge", suffix := "%" })] : Registry) =
    (Registry.mk
      [("Battery State Of Charge",
        { metricId := "deye_battery_state_of_charge",
          label := "Battery State Of Charge (%)", value := none })]
      [("Battery State Of Charge",
        { metricId := "deye_battery_state_of_charge_info",
          label := "Battery State Of Charge (%)", value := none })]
      [("BatterySOC",
        { description := "Battery State of Charge", suffix := "%" })] : Registry) ∧
    ∃ e, buildRegistry catC8 ["BatterySOC"]
        ["deye_battery_state_of_charge_info", "deye_battery_state_of_charge"] =
      Except.error e := by
  constructor
  · exact (claim_C8_amended catC8 ["BatterySOC"] [] [] []
      (Registry.mk
        [("Battery State Of Charge",
          { metricId := "deye_battery_state_of_charge",
            label := "Battery State Of Charge (%)", value := none })]
        [("Battery State Of Charge",
          { metricId := "deye_battery_state_of_charge_info",
            label := "Battery State Of Charge (%)", value := none })]
        [("BatterySOC",
          { description := "Battery State of Charge", suffix := "%" })])
      (Registry.mk
        [("Battery State Of Charge",
          { metricId := "deye_battery_state_of_charge",
            label := "Battery State Of Charge (%)", value := none })]
        [("Battery State Of Charge",
          { metricId := "deye_battery_state_of_charge_info",
            label := "Battery State Of Charge (%)", value := none })]
        [("BatterySOC",
          { description := "Battery State of Charge", suffix := "%" })])
      (Registry.mk
        [("Battery State Of Charge",
          { metricId := "deye_battery_state_of_charge",
            label := "Battery State Of Charge (%)", value := none })]
        [("Battery State Of Charge",
          { metricId := "deye_battery_state_of_charge_info",
            label := "Battery State Of Charge (%)", value := none })]
        [("BatterySOC",
          { description := "Battery State of Charge", suffix := "%" })])
      ["deye_battery_state_of_charge_info", "deye_battery_state_of_charge"]
      ["deye_battery_state_of_charge_info", "deye_battery_state_of_charge"]
      ["deye_battery_state_of_charge_info", "deye_battery_state_of_charge"]
      "BatterySOC" { description := "Battery State of Charge", suffix := "%" }).1
      rfl rfl
  · exact (claim_C8_amended catC8 ["BatterySOC"] [] [] []
      (Registry.mk
        [("Battery State Of Charge",
          { metricId := "deye_battery_state_of_charge",
            label := "Battery State Of Charge (%)", value := none })]
      [("Battery State Of Charge",
        { metricId := "deye_battery_state_of_charge_info",
          label := "Battery State Of Charge (%)", value := none })]
      [("BatterySOC",
        { description := "Battery State of Charge", suffix := "%" })])
      (Registry.mk
        [("Battery State Of Charge",
          { metricId := "deye_battery_state_of_charge",
            label := "Battery State Of Charge (%)", value := none })]
      [("Battery State Of Charge",
        { metricId := "deye_battery_state_of_charge_info",
          label := "Battery State Of Charge (%)", value := none })]
      [("BatterySOC",
        { description := "Battery State of Charge", suffix := "%" })])
      (Registry.mk
        [("Battery State Of Charge",
          { metricId := "deye_battery_state_of_charge",
            label := "Battery State Of Charge (%)", value := none })]
      [("Battery State Of Charge",
        { metricId := "deye_battery_state_of_charge_info",
          label := "Battery State Of Charge (%)", value := none })]
      [("BatterySOC",
        { description := "Battery State of Charge", suffix := "%" })])
      ["deye_battery_state_of_charge_info", "deye_battery_state_of_charge"]
      ["deye_battery_state_of_charge_info", "deye_battery_state_of_charge"]
      ["deye_battery_state_of_charge_info", "deye_battery_state_of_charge"]
      "BatterySOC" { description := "Battery State of Charge", suffix := "%" }).2
      rfl (List.mem_cons_self _ _) rfl

/-- Claim C10: after a successful registry construction the numeric and
textual tables have exactly the same key list; the paired handles under one
key have process-wide names related by appending `_info`, so the two
registrations for one register never collide; and no collection cycle adds
or removes keys from either table. -/
theorem claim_C10 (cat : Catalog) (names ns : List String) (r : Registry)
    (ns'' : List String)
    (h : buildRegistry cat names ns = Except.ok (r, ns'')) :
    dictKeys r.numericMetrics = dictKeys r.stringMetrics ∧
    (∀ d g i, dictLookup r.numericMetrics d = some g →
       dictLookup r.stringMetrics d = some i →
       i.metricId = g.metricId ++ "_info" ∧ g.metricId ≠ i.metricId) ∧
    (∀ batches,
       dictKeys (collect_metrics r batches).numericMetrics = dictKeys r.numericMetrics ∧
       dictKeys (collect_metrics r batches).stringMetrics = dictKeys r.stringMetrics) := by
  refine ⟨?_, ?_, ?_⟩
  · exact setupMetrics_keys_eq cat names emptyRegistry ns r ns'' h rfl
  · intro d g i hg hi
    have hcanon := setupMetrics_canon cat names emptyRegistry ns r ns'' h
      emptyRegistry_numeric_vacuous emptyRegistry_string_vacuous
    have hgid := hcanon.1 d g hg
    have hiid := hcanon.2 d i hi
    constructor
    · rw [hgid, hiid, createMetricId_info_suffix]
    · rw [hgid, hiid, createMetricId_info_suffix]
      exact string_ne_append_info _
  · intro batches
    exact collect_metrics_keys batches r

/-- Witness for claim C10: on the concrete build over `TodayFromPV` the two
key lists agree and a cycle dispatching a decoded value changes no key list. -/
theorem claim_C10_witness :
    dictKeys (Registry.mk
      [("Today From Pv",
        { metricId := "deye_today_from_pv",
          label := "Today From Pv (kWh)", value := none })]
      [("Today From Pv",
        { metricId := "deye_today_from_pv_info",
          label := "Today From Pv (kWh)", value := none })]
      [("TodayFromPV",
        { description := "Today From PV", suffix := "kWh" })]).numericMetrics =
    dictKeys (Registry.mk
      [("Today From Pv",
        { metricId := "deye_today_from_pv",
          label := "Today From Pv (kWh)", value := none })]
      [("Today From Pv",
        { metricId := "deye_today_from_pv_info",
          label := "Today From Pv (kWh)", value := none })]
      [("TodayFromPV",
        { description := "Today From PV", suffix := "kWh" })]).stringMetrics ∧
    dictKeys (collect_metrics
      (Registry.mk
        [("Today From Pv",
          { metricId := "deye_today_from_pv",
            label := "Today From Pv (kWh)", value := none })]
        [("Today From Pv",
          { metricId := "deye_today_from_pv_info",
            label := "Today From Pv (kWh)", value := none })]
        [("TodayFromPV",
          { description := "Today From PV", suffix := "kWh" })])
      [Except.ok [{ description := some "Today From PV", suffix := "kWh",
                    value := some (Value.vint 3) }]]).numericMetrics =
    dictKeys (Registry.mk
      [("Today From Pv",
        { metricId := "deye_today_from_pv",
          label := "Today From Pv (kWh)", value := none })]
      [("Today From Pv",
        { metricId := "deye_today_from_pv_info",
          label := "Today From Pv (kWh)", value := none })]
      [("TodayFromPV",
        { description := "Today From PV", suffix := "kWh" })]).numericMetrics := by
  constructor
  · exact (claim_C10 catC10 ["TodayFromPV"] []
      (Registry.mk
        [("Today From Pv",
          { metricId := "deye_today_from_pv",
            label := "Today From Pv (kWh)", value := none })]
        [("Today From Pv",
          { metricId := "deye_today_from_pv_info",
            label := "Today From Pv (kWh)", value := none })]
        [("TodayFromPV",
          { description := "Today From PV", suffix := "kWh" })])
      ["deye_today_from_pv_info", "deye_today_from_pv"] rfl).1
  · exact ((claim_C10 catC10 ["TodayFromPV"] []
      (Registry.mk
        [("Today From Pv",
          { metricId := "deye_today_from_pv",
            label := "Today From Pv (kWh)", value := none })]
        [("Today From Pv",
          { metricId := "deye_today_from_pv_info",
            label := "Today From Pv (kWh)", value := none })]
        [("TodayFromPV",
          { description := "Today From PV", suffix := "kWh" })])
      ["deye_today_from_pv_info", "deye_today_from_pv"] rfl).2.2
      [Except.ok [{ description := some "Today From PV", suffix := "kWh",
                    value := some (Value.vint 3) }]]).1
